import Mathlib

/-!
Verification of the control-channel protocol engine of the rust-ftp server
(src/command.rs, src/response.rs, src/session.rs, src/main.rs).

The Rust code is shallowly embedded: each Rust function becomes a Lean
function of the same name; the session's mutable fields (`login_status`,
`transfer_mode`) are passed and returned explicitly; I/O outcomes that the
code branches on (port allocation, listener bind, accept, socket writes)
are supplied as explicit environment values; `panic` / `unreachable!` is
`Option.none`; fallible handlers return `Except String String` exactly as
the Rust handlers return `anyhow::Result<String>`.
-/

namespace RustFtp

/-! ## Strings: ASCII helpers mirroring the Rust standard library calls -/

/-- Rust `char::is_ascii_whitespace`: space, tab, line feed, form feed,
carriage return. -/
def is_ascii_whitespace (c : Char) : Bool :=
  c = ' ' || c = '\t' || c = '\n' || c = '\x0C' || c = '\r'

/-- ASCII lowercasing of one character, as Rust `eq_ignore_ascii_case`
compares (`strum(ascii_case_insensitive)` matching). -/
def char_ascii_lower (c : Char) : Char :=
  if 'A' ≤ c && c ≤ 'Z' then Char.ofNat (c.toNat + 32) else c

/-- ASCII lowercasing of a string. -/
def ascii_lower (s : String) : String :=
  String.mk (s.data.map char_ascii_lower)

/-- Rust `Vec::<String>::join(sep)`. -/
def joinWith (sep : String) : List String → String
  | [] => ""
  | [a] => a
  | a :: rest => a ++ sep ++ joinWith sep rest

/-- Accumulator loop for `split_ascii_whitespace`: `cur` holds the
characters of the token being read, in reverse. -/
def tokenizeAux : List Char → List Char → List String
  | [], cur => if cur = [] then [] else [String.mk cur.reverse]
  | c :: cs, cur =>
    if is_ascii_whitespace c then
      if cur = [] then tokenizeAux cs []
      else String.mk cur.reverse :: tokenizeAux cs []
    else tokenizeAux cs (c :: cur)

/-- Rust `s.split_ascii_whitespace().collect::<Vec<_>>()`: the maximal
runs of non-whitespace characters, in order. -/
def tokenize (s : String) : List String :=
  tokenizeAux s.data []

/-- Accumulator loop for Rust `s.split(sep)` (keeps empty pieces). -/
def splitCharAux (sep : Char) : List Char → List Char → List String
  | [], cur => [String.mk cur.reverse]
  | c :: cs, cur =>
    if c = sep then String.mk cur.reverse :: splitCharAux sep cs []
    else splitCharAux sep cs (c :: cur)

/-- Rust `s.split(sep).collect::<Vec<_>>()` for a single separator char. -/
def splitChar (sep : Char) (s : String) : List String :=
  splitCharAux sep s.data []

/-- Rust `msg.ends_with("\r\n")`, decided on the character list: the last
two characters, read from the end, are `'\n'` then `'\r'`. -/
def ends_with_crlf (s : String) : Bool :=
  decide (s.data.reverse.take 2 = ['\n', '\r'])

/-! ## response.rs -/

/-- One constructor per `response!` struct in response.rs. -/
inductive RespKind
  | DataTransferStarts150
  | Greeting220
  | Goodbye221
  | DataTransferFinished226
  | PasvMode227
  | LoginSuccess230
  | NeedPassword331
  | ServiceNotAvalible421
  | NoModeSpecified425
  | SyntaxErr500
  | InvalidParameter501
  | NotImplementedCommand502
  | WrongCmdSequence503
  | NotLoggedin530
  | UnknownResp999
deriving DecidableEq

/-- The numeric code fixed by each `response!(_, code, ...)` invocation. -/
def respCode : RespKind → Nat
  | .DataTransferStarts150 => 150
  | .Greeting220 => 220
  | .Goodbye221 => 221
  | .DataTransferFinished226 => 226
  | .PasvMode227 => 227
  | .LoginSuccess230 => 230
  | .NeedPassword331 => 331
  | .ServiceNotAvalible421 => 421
  | .NoModeSpecified425 => 425
  | .SyntaxErr500 => 500
  | .InvalidParameter501 => 501
  | .NotImplementedCommand502 => 502
  | .WrongCmdSequence503 => 503
  | .NotLoggedin530 => 530
  | .UnknownResp999 => 999

/-- The compiled-in default message, when the `response!` invocation has a
third argument (`PasvMode227` and `UnknownResp999` have none). -/
def respDefaultMessage : RespKind → Option String
  | .DataTransferStarts150 => some "150 Here comes the data."
  | .Greeting220 => some "Welcome to the rust FTP Server."
  | .Goodbye221 => some "Goodbye."
  | .DataTransferFinished226 => some "Data transfer finished."
  | .PasvMode227 => none
  | .LoginSuccess230 => some "Login successful."
  | .NeedPassword331 => some "Please specify the password."
  | .ServiceNotAvalible421 => some "Service not available, closing control connection."
  | .NoModeSpecified425 => some "Use PASV first."
  | .SyntaxErr500 => some "Command not executed: syntax error."
  | .InvalidParameter501 => some "Invalid parameters."
  | .NotImplementedCommand502 => some "Command not implemented."
  | .WrongCmdSequence503 => some "Wrong command sequence."
  | .NotLoggedin530 => some "Please login with USER and PASS."
  | .UnknownResp999 => none

/-- A response value: its kind plus the optional caller-supplied override
body (`Self(Option<String>)` / `Self(String)` in the source; a kind with
no default message is only ever built with an override). -/
structure Resp where
  kind : RespKind
  override : Option String
deriving DecidableEq

/-- `ResponseMessage::message`: the override if present, else the default. -/
def Resp.message (r : Resp) : String :=
  match r.override with
  | some s => s
  | none =>
    match respDefaultMessage r.kind with
    | some d => d
    | none => ""

/-- The `impl_display!` serialization:
`write!(f, "{} {}\r\n", self.code(), self.message())`. -/
def Resp.toLine (r : Resp) : String :=
  toString (respCode r.kind) ++ " " ++ r.message ++ "\r\n"

/-- `Xxx::new(s)`: response with a custom body. -/
def respNew (k : RespKind) (s : String) : Resp := ⟨k, some s⟩

/-- `Xxx::default()`: response with the compiled-in default body. -/
def respDefault (k : RespKind) : Resp := ⟨k, none⟩

/-- `Session::send_msg_check_crlf`: the bytes put on the wire for one sent
message — the message itself, with `\r\n` appended only when it does not
already end with it. -/
def send_msg_check_crlf (msg : String) : String :=
  if ends_with_crlf msg then msg else msg ++ "\r\n"

/-! ## command.rs -/

/-- The verbs registered by
`commands!(Quit(0), User(1), Pass(1), FakeCmdWithTwoArg(2), Pasv(0), Port(1), List(0))`. -/
inductive Verb
  | quit
  | user
  | pass
  | fakeCmdWithTwoArg
  | pasv
  | port
  | list
deriving DecidableEq

/-- The declared argument count of each verb (the `$argc` literals). -/
def arity : Verb → Nat
  | .quit => 0
  | .user => 1
  | .pass => 1
  | .fakeCmdWithTwoArg => 2
  | .pasv => 0
  | .port => 1
  | .list => 0

/-- The `Command` enum: one variant per registered verb, each carrying a
vector of string arguments. -/
inductive Command
  | quit (args : List String)
  | user (args : List String)
  | pass (args : List String)
  | fakeCmdWithTwoArg (args : List String)
  | pasv (args : List String)
  | port (args : List String)
  | list (args : List String)
deriving DecidableEq

/-- Build the variant matching a verb. -/
def Command.mk (v : Verb) (args : List String) : Command :=
  match v with
  | .quit => .quit args
  | .user => .user args
  | .pass => .pass args
  | .fakeCmdWithTwoArg => .fakeCmdWithTwoArg args
  | .pasv => .pasv args
  | .port => .port args
  | .list => .list args

/-- `Command::from_str` as derived by
`#[derive(EnumString)] #[strum(ascii_case_insensitive)]`: the token is
matched against each variant name ignoring ASCII case. -/
def from_str (t : String) : Option Verb :=
  if ascii_lower t = "quit" then some .quit
  else if ascii_lower t = "user" then some .user
  else if ascii_lower t = "pass" then some .pass
  else if ascii_lower t = "fakecmdwithtwoarg" then some .fakeCmdWithTwoArg
  else if ascii_lower t = "pasv" then some .pasv
  else if ascii_lower t = "port" then some .port
  else if ascii_lower t = "list" then some .list
  else none

/-- The argument-collection `loop` inside `Command::parse` for a verb of
declared arity `N > 0`: take tokens one at a time until `N - 1` have been
collected, then join every remaining token with single spaces into the
last argument, pushed only when non-empty. -/
def collectLoop (N : Nat) (args tokens : List String) : List String :=
  if args.length + 1 = N then
    let last := joinWith " " tokens
    if last = "" then args else args ++ [last]
  else
    match tokens with
    | [] => args
    | t :: ts => collectLoop N (args ++ [t]) ts

/-- `Command::parse`: split on ASCII whitespace; empty input is a 500
error; resolve the first token case-insensitively (unknown verb is a 500
error); then apply the arity rule, failing with a 501 error when fewer
than the declared number of tokens remain. -/
def Command.parse (s : String) : Except String Command :=
  let tokens := tokenize s
  match tokens with
  | [] => .error (respDefault .SyntaxErr500).toLine
  | t :: rest =>
    match from_str t with
    | none => .error (respNew .SyntaxErr500 "Command not understood.").toLine
    | some v =>
      if arity v = 0 then
        let arg := joinWith " " rest
        if arg = "" then .ok (Command.mk v []) else .ok (Command.mk v [arg])
      else
        let args := collectLoop (arity v) [] rest
        if args.length < arity v then
          .error (respNew .InvalidParameter501 "Invalid number of arguments.").toLine
        else .ok (Command.mk v args)

/-! ## session.rs -/

/-- `const FAKE_USER` / `const FAKE_PASS` and `fake_user_valid`. -/
def fake_user_valid (username password : String) : Bool :=
  username = "anonymous" && password = "anonymous"

/-- `get_local_hostname`. -/
def get_local_hostname : String := "127.0.0.1"

/-- `hostname_to_comma_hostname`: from `h1.h2.h3.h4` to `h1,h2,h3,h4`. -/
def hostname_to_comma_hostname (hostname : String) : String :=
  joinWith "," (splitChar '.' hostname)

/-- `enum LoginStatus`. -/
inductive LoginStatus
  | unloggedin
  | username (u : String)
  | loggedin (u : String)
deriving DecidableEq

/-- `enum TransferMode`; the bound `TcpListener` is an opaque handle. -/
inductive TransferMode
  | notSpecified
  | pasv (port : Nat) (listener : Nat)
deriving DecidableEq

/-- Result of running one handler on the session: the two mutable session
fields after the call, the messages the handler itself pushed onto the
control connection via `send_msg_check_crlf`, and the handler's
`Result<String>` (`.ok` = response for the main loop to send, `.error` =
fatal, the session terminates). -/
structure HandlerOut where
  login : LoginStatus
  mode : TransferMode
  sent : List String
  result : Except String String

/-- Environment consumed by `exec_pasv`: the outcome of
`portpicker::pick_unused_port()`, of `TcpListener::bind`, and the handle
of the listener obtained when the bind succeeds. -/
structure PasvEnv where
  pickPort : Option Nat
  bindOk : Bool
  listenerId : Nat
deriving DecidableEq

/-- Environment consumed by `data_connection_wrapper`: whether
`listener.accept()` succeeds, whether sending the 150 line succeeds, and
whether the data-transfer closure succeeds. -/
structure DataEnv where
  acceptOk : Bool
  sendOk : Bool
  transferOk : Bool
deriving DecidableEq

/-- `Session::exec_quit`: send 221, then return `Err("quit")`. -/
def exec_quit (login : LoginStatus) (mode : TransferMode) (_args : List String) : HandlerOut :=
  ⟨login, mode, [send_msg_check_crlf (respDefault .Goodbye221).toLine], .error "quit"⟩

/-- `Session::exec_user`: `&args[0]` panics on an empty vector (`none`);
otherwise a logged-in session keeps its user and answers 530, and any
other session records the username and answers 331. -/
def exec_user (login : LoginStatus) (mode : TransferMode) (args : List String) :
    Option HandlerOut :=
  match args with
  | [] => none
  | username :: _ =>
    some (match login with
      | .loggedin x =>
        ⟨.loggedin x, mode, [], .ok (respNew .NotLoggedin530 "Can't change to another user.").toLine⟩
      | .unloggedin =>
        ⟨.username username, mode, [], .ok (respDefault .NeedPassword331).toLine⟩
      | .username _ =>
        ⟨.username username, mode, [], .ok (respDefault .NeedPassword331).toLine⟩)

/-- `Session::exec_pass`: `&args[0]` panics on an empty vector (`none`);
otherwise 503 before USER, 230 when already logged in, and after USER the
credential check decides between 230/logged-in and 530/back-to-start. -/
def exec_pass (login : LoginStatus) (mode : TransferMode) (args : List String) :
    Option HandlerOut :=
  match args with
  | [] => none
  | passwd :: _ =>
    some (match login with
      | .unloggedin =>
        ⟨.unloggedin, mode, [], .ok (respNew .WrongCmdSequence503 "Login with USER first.").toLine⟩
      | .loggedin x =>
        ⟨.loggedin x, mode, [], .ok (respNew .LoginSuccess230 "Already logged in.").toLine⟩
      | .username username =>
        if fake_user_valid username passwd then
          ⟨.loggedin username, mode, [], .ok (respDefault .LoginSuccess230).toLine⟩
        else
          ⟨.unloggedin, mode, [], .ok (respNew .NotLoggedin530 "Login incorrect.").toLine⟩)

/-- `Session::exec_pasv`: the `check_permission_or_return!` guard answers
530 for a session that is not logged in; then a successful port pick and
bind replace the transfer mode and answer 227 with the comma address and
the split port, and any failure is the fatal 421. -/
def exec_pasv (login : LoginStatus) (mode : TransferMode) (_args : List String)
    (env : PasvEnv) : HandlerOut :=
  match login with
  | .unloggedin => ⟨login, mode, [], .ok (respDefault .NotLoggedin530).toLine⟩
  | .username x => ⟨.username x, mode, [], .ok (respDefault .NotLoggedin530).toLine⟩
  | .loggedin x =>
    match env.pickPort with
    | some port =>
      if env.bindOk then
        ⟨.loggedin x, .pasv port env.listenerId, [],
          .ok (respNew .PasvMode227
            ("(" ++ hostname_to_comma_hostname get_local_hostname ++ ","
              ++ toString (port / 256) ++ "," ++ toString (port % 256) ++ ")")).toLine⟩
      else ⟨.loggedin x, mode, [], .error (respDefault .ServiceNotAvalible421).toLine⟩
    | none => ⟨.loggedin x, mode, [], .error (respDefault .ServiceNotAvalible421).toLine⟩

/-- `Session::data_connection_wrapper`: `std::mem::replace` takes the
transfer mode out, leaving `NotSpecified`, before anything else; an unset
mode answers 425; otherwise one accept is attempted on the stored
listener — on success the 150 line is sent, the transfer closure runs,
and 226 is the response; a failed accept is the fatal 421; an error from
the 150 send or from the closure propagates as a fatal error. -/
def data_connection_wrapper (login : LoginStatus) (mode : TransferMode)
    (env : DataEnv) : HandlerOut :=
  match mode with
  | .notSpecified =>
    ⟨login, .notSpecified, [], .ok (respDefault .NoModeSpecified425).toLine⟩
  | .pasv _ _ =>
    if env.acceptOk then
      if env.sendOk then
        if env.transferOk then
          ⟨login, .notSpecified, [send_msg_check_crlf (respDefault .DataTransferStarts150).toLine],
            .ok (respDefault .DataTransferFinished226).toLine⟩
        else
          ⟨login, .notSpecified, [send_msg_check_crlf (respDefault .DataTransferStarts150).toLine],
            .error "data transfer io error"⟩
      else ⟨login, .notSpecified, [], .error "send io error"⟩
    else ⟨login, .notSpecified, [], .error (respDefault .ServiceNotAvalible421).toLine⟩

/-- `Session::exec_list`: the permission guard answers 530 when not
logged in, else the canned-payload transfer runs under
`data_connection_wrapper`. -/
def exec_list (login : LoginStatus) (mode : TransferMode) (_args : List String)
    (env : DataEnv) : HandlerOut :=
  match login with
  | .unloggedin => ⟨login, mode, [], .ok (respDefault .NotLoggedin530).toLine⟩
  | .username x => ⟨.username x, mode, [], .ok (respDefault .NotLoggedin530).toLine⟩
  | .loggedin x => data_connection_wrapper (.loggedin x) mode env

/-- `Session::exec_port`: always 502, state untouched. -/
def exec_port (login : LoginStatus) (mode : TransferMode) (_args : List String) : HandlerOut :=
  ⟨login, mode, [], .ok (respDefault .NotImplementedCommand502).toLine⟩

/-- `Session::exec_cmd`, as generated by `register_command_handlers!`:
dispatch each variant to its handler; `exec_fakecmdwithtwoarg` is
`unreachable!()`, i.e. a panic (`none`), like the out-of-bounds indexing
inside `exec_user` / `exec_pass`. -/
def exec_cmd (login : LoginStatus) (mode : TransferMode) (cmd : Command)
    (penv : PasvEnv) (denv : DataEnv) : Option HandlerOut :=
  match cmd with
  | .quit args => some (exec_quit login mode args)
  | .user args => exec_user login mode args
  | .pass args => exec_pass login mode args
  | .fakeCmdWithTwoArg _ => none
  | .pasv args => some (exec_pasv login mode args penv)
  | .port args => some (exec_port login mode args)
  | .list args => some (exec_list login mode args denv)

/-- The list of every response kind (used to quantify over the catalog). -/
def allRespKinds : List RespKind :=
  [.DataTransferStarts150, .Greeting220, .Goodbye221, .DataTransferFinished226,
   .PasvMode227, .LoginSuccess230, .NeedPassword331, .ServiceNotAvalible421,
   .NoModeSpecified425, .SyntaxErr500, .InvalidParameter501, .NotImplementedCommand502,
   .WrongCmdSequence503, .NotLoggedin530, .UnknownResp999]

/-- Rust `s.starts_with(pre)`, decided on the character lists. -/
def starts_with (s pre : String) : Bool := pre.data.isPrefixOf s.data

/-! ## The USER/PASS state machine (for the reachability claims) -/

/-- A login-phase command: `USER u` or `PASS p` (the only commands that
touch `login_status`). -/
inductive UPCmd
  | user (u : String)
  | pass (p : String)
deriving DecidableEq

/-- The change `exec_user` / `exec_pass` makes to `login_status`,
extracted from the handlers. -/
def stepLogin : LoginStatus → UPCmd → LoginStatus
  | .loggedin x, .user _ => .loggedin x
  | .unloggedin, .user u => .username u
  | .username _, .user u => .username u
  | .unloggedin, .pass _ => .unloggedin
  | .loggedin x, .pass _ => .loggedin x
  | .username u, .pass p => if fake_user_valid u p then .loggedin u else .unloggedin

/-- Run a sequence of USER/PASS commands from a starting login state. -/
def runUP (s : LoginStatus) (cs : List UPCmd) : LoginStatus :=
  cs.foldl stepLogin s

/-- The decomposition demanded by the spec: somewhere in the sequence a
USER carrying a valid name is immediately followed by a PASS carrying the
matching secret. -/
def HasLoginPair (cs : List UPCmd) : Prop :=
  ∃ pre u p post, cs = pre ++ UPCmd.user u :: UPCmd.pass p :: post
    ∧ fake_user_valid u p = true

/-- The session states reachable from a fresh connection
(`Session::new` sets `Unloggedin` and `NotSpecified`) by executing parsed
commands, whatever the I/O environment does. -/
inductive Reachable : LoginStatus → TransferMode → Prop
  | init : Reachable .unloggedin .notSpecified
  | step {l m out : _} {cmd : Command} {penv : PasvEnv} {denv : DataEnv} :
      Reachable l m → exec_cmd l m cmd penv denv = some out →
      Reachable out.login out.mode

/-! ## Helper lemmas -/

lemma string_mk_ne_empty (l : List Char) (h : l ≠ []) : String.mk l ≠ "" := by
  intro hc
  exact h (congrArg String.data hc)

lemma string_append_ne_empty (a b : String) (h : a ≠ "") : a ++ b ≠ "" := by
  intro hc
  apply h
  have hd := congrArg String.data hc
  rw [String.data_append] at hd
  rcases List.append_eq_nil.mp hd with ⟨ha, _⟩
  exact String.ext ha

lemma string_append_assoc (a b c : String) : a ++ b ++ c = a ++ (b ++ c) := by
  apply String.ext
  simp [String.data_append]

lemma joinWith_space_ne_empty (x : String) (l : List String) (hx : x ≠ "") :
    joinWith " " (x :: l) ≠ "" := by
  cases l with
  | nil => simpa [joinWith] using hx
  | cons y ys =>
    show x ++ " " ++ joinWith " " (y :: ys) ≠ ""
    exact string_append_ne_empty _ _ (string_append_ne_empty _ _ hx)

lemma mem_tokenizeAux_ne_empty (cs : List Char) :
    ∀ cur x, x ∈ tokenizeAux cs cur → x ≠ "" := by
  induction cs with
  | nil =>
    intro cur x hx
    rw [tokenizeAux] at hx
    split at hx
    · simp at hx
    · next h =>
      simp at hx
      subst hx
      exact string_mk_ne_empty _ (by simpa using h)
  | cons c cs ih =>
    intro cur x hx
    rw [tokenizeAux] at hx
    split at hx
    · split at hx
      · exact ih [] x hx
      · next h =>
        rcases List.mem_cons.mp hx with h1 | h1
        · subst h1
          exact string_mk_ne_empty _ (by simpa using h)
        · exact ih [] x h1
    · exact ih (c :: cur) x hx

lemma mem_tokenize_ne_empty (s : String) (x : String) (hx : x ∈ tokenize s) : x ≠ "" :=
  mem_tokenizeAux_ne_empty s.data [] x hx

lemma collectLoop_lt (N : Nat) (args tokens : List String)
    (h : args.length + tokens.length < N) :
    collectLoop N args tokens = args ++ tokens := by
  induction tokens generalizing args with
  | nil =>
    rw [collectLoop]
    by_cases hEq : args.length + 1 = N
    · simp [hEq, joinWith]
    · simp [hEq]
  | cons t ts ih =>
    rw [collectLoop]
    have hNe : ¬ (args.length + 1 = N) := by
      simp only [List.length_cons] at h
      omega
    rw [if_neg hNe]
    rw [ih (args ++ [t]) (by simp only [List.length_append, List.length_cons,
      List.length_nil, List.length_cons] at h ⊢; omega)]
    simp

lemma collectLoop_length_le (N : Nat) (args tokens : List String)
    (h : args.length < N) :
    (collectLoop N args tokens).length ≤ N := by
  induction tokens generalizing args with
  | nil =>
    rw [collectLoop]
    by_cases hEq : args.length + 1 = N
    · rw [if_pos hEq]
      dsimp only
      split <;> (try simp) <;> omega
    · rw [if_neg hEq]
      omega
  | cons t ts ih =>
    rw [collectLoop]
    by_cases hEq : args.length + 1 = N
    · rw [if_pos hEq]
      dsimp only
      split <;> (try simp) <;> omega
    · rw [if_neg hEq]
      exact ih (args ++ [t]) (by simp; omega)

lemma collectLoop_ge (N : Nat) (args tokens : List String)
    (h1 : args.length < N) (h2 : N ≤ args.length + tokens.length)
    (h3 : ∀ x ∈ tokens, x ≠ "") :
    collectLoop N args tokens
      = args ++ tokens.take (N - 1 - args.length)
          ++ [joinWith " " (tokens.drop (N - 1 - args.length))] := by
  induction tokens generalizing args with
  | nil =>
    simp only [List.length_nil, Nat.add_zero] at h2
    omega
  | cons t ts ih =>
    rw [collectLoop]
    by_cases hEq : args.length + 1 = N
    · have hk : N - 1 - args.length = 0 := by omega
      have hne : joinWith " " (t :: ts) ≠ "" :=
        joinWith_space_ne_empty t ts (h3 t (by simp))
      rw [if_pos hEq]
      simp [hk, hne]
    · have hlt : args.length + 1 < N := by omega
      rw [if_neg hEq]
      rw [ih (args ++ [t]) (by simp; omega)
        (by simp only [List.length_append, List.length_cons, List.length_nil] at h2 ⊢; omega)
        (fun x hx => h3 x (by simp [hx]))]
      obtain ⟨k, hk⟩ : ∃ k, N - 1 - args.length = k + 1 := ⟨N - 2 - args.length, by omega⟩
      have hk2 : N - 1 - (args ++ [t]).length = k := by simp; omega
      rw [hk, hk2]
      simp

lemma ends_with_crlf_append_crlf (a : String) : ends_with_crlf (a ++ "\r\n") = true := by
  unfold ends_with_crlf
  rw [decide_eq_true_eq]
  have : (a ++ "\r\n").data = a.data ++ ['\r', '\n'] := by
    rw [String.data_append]
  rw [this]
  simp

lemma hasLoginPair_cons (c : UPCmd) (cs : List UPCmd) (h : HasLoginPair cs) :
    HasLoginPair (c :: cs) := by
  obtain ⟨pre, u, p, post, hcs, hv⟩ := h
  exact ⟨c :: pre, u, p, post, by simp [hcs], hv⟩

lemma stepLogin_loggedin (x : String) (c : UPCmd) :
    stepLogin (.loggedin x) c = .loggedin x := by
  cases c <;> rfl

lemma runUP_loggedin (x : String) (cs : List UPCmd) :
    runUP (.loggedin x) cs = .loggedin x := by
  induction cs with
  | nil => rfl
  | cons c cs ih => simpa [runUP, stepLogin_loggedin] using ih

lemma runUP_reaches_loggedin_decomp (cs : List UPCmd) :
    (∀ u₀, runUP .unloggedin cs = .loggedin u₀ → HasLoginPair cs) ∧
    (∀ x u₀, runUP (.username x) cs = .loggedin u₀ →
      HasLoginPair cs ∨ ∃ p post, cs = UPCmd.pass p :: post ∧ fake_user_valid x p = true) := by
  induction cs with
  | nil =>
    constructor
    · intro u₀ h
      simp [runUP] at h
    · intro x u₀ h
      simp [runUP] at h
  | cons c cs ih =>
    constructor
    · intro u₀ h
      cases c with
      | user u =>
        have h' : runUP (.username u) cs = .loggedin u₀ := h
        rcases ih.2 u u₀ h' with hp | ⟨p, post, hcs, hv⟩
        · exact hasLoginPair_cons _ _ hp
        · exact ⟨[], u, p, post, by simp [hcs], hv⟩
      | pass p =>
        have h' : runUP .unloggedin cs = .loggedin u₀ := h
        exact hasLoginPair_cons _ _ (ih.1 u₀ h')
    · intro x u₀ h
      cases c with
      | user u =>
        have h' : runUP (.username u) cs = .loggedin u₀ := h
        rcases ih.2 u u₀ h' with hp | ⟨p, post, hcs, hv⟩
        · exact Or.inl (hasLoginPair_cons _ _ hp)
        · exact Or.inl ⟨[], u, p, post, by simp [hcs], hv⟩
      | pass p =>
        by_cases hv : fake_user_valid x p = true
        · exact Or.inr ⟨p, cs, rfl, hv⟩
        · have h' : runUP .unloggedin cs = .loggedin u₀ := by
            simpa [runUP, stepLogin, hv] using h
          exact Or.inl (hasLoginPair_cons _ _ (ih.1 u₀ h'))

lemma hasLoginPair_reaches_loggedin (s : LoginStatus) (pre post : List UPCmd)
    (u p : String) (hv : fake_user_valid u p = true) :
    ∃ w, runUP s (pre ++ UPCmd.user u :: UPCmd.pass p :: post) = .loggedin w := by
  rw [runUP, List.foldl_append]
  cases hs : List.foldl stepLogin s pre with
  | loggedin x =>
    refine ⟨x, ?_⟩
    show List.foldl stepLogin (stepLogin (stepLogin (.loggedin x) (.user u)) (.pass p)) post
      = .loggedin x
    rw [stepLogin_loggedin, stepLogin_loggedin]
    exact runUP_loggedin x post
  | unloggedin =>
    refine ⟨u, ?_⟩
    show List.foldl stepLogin (stepLogin (stepLogin .unloggedin (.user u)) (.pass p)) post
      = .loggedin u
    show List.foldl stepLogin (if fake_user_valid u p then .loggedin u else .unloggedin) post
      = .loggedin u
    rw [if_pos hv]
    exact runUP_loggedin u post
  | username y =>
    refine ⟨u, ?_⟩
    show List.foldl stepLogin (stepLogin (stepLogin (.username y) (.user u)) (.pass p)) post
      = .loggedin u
    show List.foldl stepLogin (if fake_user_valid u p then .loggedin u else .unloggedin) post
      = .loggedin u
    rw [if_pos hv]
    exact runUP_loggedin u post

/-! ## Reachable session states -/

lemma exec_pasv_unauth (l : LoginStatus) (m : TransferMode) (args : List String)
    (env : PasvEnv) (h : ∀ x, l ≠ .loggedin x) :
    exec_pasv l m args env = ⟨l, m, [], .ok (respDefault .NotLoggedin530).toLine⟩ := by
  cases l with
  | loggedin x => exact absurd rfl (h x)
  | unloggedin => rfl
  | username y => rfl

lemma exec_list_unauth (l : LoginStatus) (m : TransferMode) (args : List String)
    (env : DataEnv) (h : ∀ x, l ≠ .loggedin x) :
    exec_list l m args env = ⟨l, m, [], .ok (respDefault .NotLoggedin530).toLine⟩ := by
  cases l with
  | loggedin x => exact absurd rfl (h x)
  | unloggedin => rfl
  | username y => rfl

/-- The transfer mode after `data_connection_wrapper` is always
`NotSpecified`, whatever the starting mode and whatever the accept, send
and transfer outcomes: the mode is taken out by `mem::replace` first. -/
lemma data_connection_wrapper_resets (l : LoginStatus) (m : TransferMode) (env : DataEnv) :
    (data_connection_wrapper l m env).mode = .notSpecified := by
  rcases env with ⟨a, sOk, tOk⟩
  cases m <;> cases a <;> cases sOk <;> cases tOk <;> rfl

/-- A session that is not logged in has no passive listener: PASV, the
only command that installs one, requires `Loggedin`, and `Loggedin` is
never left once entered. -/
lemma reachable_unauth_no_listener {l : LoginStatus} {m : TransferMode}
    (h : Reachable l m) : (∀ x, l ≠ .loggedin x) → m = .notSpecified := by
  induction h with
  | init => intro _; rfl
  | @step l m out cmd penv denv _ hexec ih =>
    intro hna
    cases cmd with
    | quit args =>
      cases hexec
      exact ih hna
    | user args =>
      cases args with
      | nil => exact Option.noConfusion hexec
      | cons a rest =>
        cases l with
        | loggedin x =>
          cases hexec
          exact absurd rfl (hna x)
        | unloggedin =>
          cases hexec
          exact ih (fun _ hx => LoginStatus.noConfusion hx)
        | username y =>
          cases hexec
          exact ih (fun _ hx => LoginStatus.noConfusion hx)
    | pass args =>
      cases args with
      | nil => exact Option.noConfusion hexec
      | cons a rest =>
        cases l with
        | loggedin x =>
          cases hexec
          exact absurd rfl (hna x)
        | unloggedin =>
          cases hexec
          exact ih (fun _ hx => LoginStatus.noConfusion hx)
        | username y =>
          by_cases hv : fake_user_valid y a = true
          · have : exec_pass (.username y) m (a :: rest)
                = some ⟨.loggedin y, m, [], .ok (respDefault .LoginSuccess230).toLine⟩ := by
              show some (if fake_user_valid y a then _ else _) = _
              rw [if_pos hv]
            have hexec2 : exec_pass (.username y) m (a :: rest) = some out := hexec
            rw [this] at hexec2
            cases hexec2
            exact absurd rfl (hna y)
          · have : exec_pass (.username y) m (a :: rest)
                = some ⟨.unloggedin, m, [],
                    .ok (respNew .NotLoggedin530 "Login incorrect.").toLine⟩ := by
              show some (if fake_user_valid y a then _ else _) = _
              rw [if_neg hv]
            have hexec2 : exec_pass (.username y) m (a :: rest) = some out := hexec
            rw [this] at hexec2
            cases hexec2
            exact ih (fun _ hx => LoginStatus.noConfusion hx)
    | fakeCmdWithTwoArg args =>
      exact Option.noConfusion hexec
    | pasv args =>
      cases l with
      | loggedin x =>
        rcases penv with ⟨pp, b, lid⟩
        cases pp with
        | none =>
          cases hexec
          exact absurd rfl (hna x)
        | some q =>
          cases b with
          | true =>
            cases hexec
            exact absurd rfl (hna x)
          | false =>
            cases hexec
            exact absurd rfl (hna x)
      | unloggedin =>
        cases hexec
        exact ih hna
      | username y =>
        cases hexec
        exact ih (fun _ hx => LoginStatus.noConfusion hx)
    | port args =>
      cases hexec
      exact ih hna
    | list args =>
      cases l with
      | loggedin x =>
        rcases denv with ⟨a, sOk, tOk⟩
        cases m with
        | notSpecified =>
          cases hexec
          exact absurd rfl (hna x)
        | pasv q lid =>
          cases a with
          | false =>
            cases hexec
            exact absurd rfl (hna x)
          | true =>
            cases sOk with
            | false =>
              cases hexec
              exact absurd rfl (hna x)
            | true =>
              cases tOk with
              | false =>
                cases hexec
                exact absurd rfl (hna x)
              | true =>
                cases hexec
                exact absurd rfl (hna x)
      | unloggedin =>
        cases hexec
        exact ih hna
      | username y =>
        cases hexec
        exact ih (fun _ hx => LoginStatus.noConfusion hx)

lemma ends_with_crlf_extract (s : String) (h : ends_with_crlf s = true) :
    ∃ b, s = b ++ "\r\n" := by
  unfold ends_with_crlf at h
  rw [decide_eq_true_eq] at h
  have hrev : s.data.reverse = '\n' :: '\r' :: s.data.reverse.drop 2 := by
    conv_lhs => rw [← List.take_append_drop 2 s.data.reverse]
    rw [h]
    rfl
  refine ⟨String.mk (s.data.reverse.drop 2).reverse, String.ext ?_⟩
  have hs : s.data = s.data.reverse.reverse := (List.reverse_reverse _).symm
  rw [hs, hrev, String.data_append]
  simp

/-! ## Claim theorems -/

/-- C1: the USER/PASS handlers implement exactly the login transition
table: USER in Unloggedin or Username(x) moves to Username(u) with 331;
USER while Loggedin leaves the state unchanged with 530; PASS in
Username(u) moves to Loggedin(u) with 230 when `fake_user_valid` accepts
and to Unloggedin with 530 when it rejects; PASS in Unloggedin is
unchanged with 503; PASS while Loggedin is unchanged with 230. -/
theorem user_pass_transition_table (u p x : String) (m : TransferMode) :
    exec_user .unloggedin m [u]
      = some ⟨.username u, m, [], .ok (respDefault .NeedPassword331).toLine⟩ ∧
    exec_user (.username x) m [u]
      = some ⟨.username u, m, [], .ok (respDefault .NeedPassword331).toLine⟩ ∧
    exec_user (.loggedin x) m [u]
      = some ⟨.loggedin x, m, [],
          .ok (respNew .NotLoggedin530 "Can't change to another user.").toLine⟩ ∧
    exec_pass (.username u) m [p]
      = some (if fake_user_valid u p then
          ⟨.loggedin u, m, [], .ok (respDefault .LoginSuccess230).toLine⟩
        else
          ⟨.unloggedin, m, [], .ok (respNew .NotLoggedin530 "Login incorrect.").toLine⟩) ∧
    exec_pass .unloggedin m [p]
      = some ⟨.unloggedin, m, [],
          .ok (respNew .WrongCmdSequence503 "Login with USER first.").toLine⟩ ∧
    exec_pass (.loggedin x) m [p]
      = some ⟨.loggedin x, m, [],
          .ok (respNew .LoginSuccess230 "Already logged in.").toLine⟩ ∧
    respCode .NeedPassword331 = 331 ∧ respCode .NotLoggedin530 = 530 ∧
    respCode .LoginSuccess230 = 230 ∧ respCode .WrongCmdSequence503 = 503 :=
  ⟨rfl, rfl, rfl, rfl, rfl, rfl, rfl, rfl, rfl, rfl⟩

/-- C2 is false as stated: the `commands!` invocation registers a seventh
verb, `FakeCmdWithTwoArg`, so the line `FakeCmdWithTwoArg a b` — whose
first token is none of the six verbs Quit/User/Pass/Pasv/Port/List — is
parsed into a `Command` instead of a 500 error. -/
theorem parse_closed_six_verbs_counterexample :
    ascii_lower "FakeCmdWithTwoArg"
      ∉ (["quit", "user", "pass", "pasv", "port", "list"] : List String) ∧
    Command.parse "FakeCmdWithTwoArg a b" = .ok (.fakeCmdWithTwoArg ["a", "b"]) :=
  ⟨by decide, rfl⟩

/-- C2 (amended): `Command` is a closed tagged union over the seven
registered verbs {Quit, User, Pass, FakeCmdWithTwoArg, Pasv, Port, List};
for every input line whose first token matches none of these seven
case-insensitively, `Command::parse` produces no `Command` and returns
the 500 syntax-class error. -/
theorem parse_unknown_verb_is_500 (s t : String) (rest : List String)
    (htok : tokenize s = t :: rest)
    (hne : ascii_lower t ∉ (["quit", "user", "pass", "fakecmdwithtwoarg",
      "pasv", "port", "list"] : List String)) :
    Command.parse s = .error (respNew .SyntaxErr500 "Command not understood.").toLine ∧
    (respNew .SyntaxErr500 "Command not understood.").toLine
      = "500 Command not understood.\r\n" := by
  have h1 : ascii_lower t ≠ "quit" := fun h => hne (by simp [h])
  have h2 : ascii_lower t ≠ "user" := fun h => hne (by simp [h])
  have h3 : ascii_lower t ≠ "pass" := fun h => hne (by simp [h])
  have h4 : ascii_lower t ≠ "fakecmdwithtwoarg" := fun h => hne (by simp [h])
  have h5 : ascii_lower t ≠ "pasv" := fun h => hne (by simp [h])
  have h6 : ascii_lower t ≠ "port" := fun h => hne (by simp [h])
  have h7 : ascii_lower t ≠ "list" := fun h => hne (by simp [h])
  have hfs : from_str t = none := by
    rw [from_str, if_neg h1, if_neg h2, if_neg h3, if_neg h4, if_neg h5, if_neg h6, if_neg h7]
  refine ⟨?_, rfl⟩
  simp only [Command.parse, htok, hfs]

theorem parse_unknown_verb_is_500_witness :
    Command.parse "NONE arg1 arg2"
      = .error (respNew .SyntaxErr500 "Command not understood.").toLine :=
  (parse_unknown_verb_is_500 "NONE arg1 arg2" "NONE" ["arg1", "arg2"]
    (by decide) (by decide)).1

/-- C6: while the session is not logged in, PASV and LIST answer 530 and
leave both `login_status` and `transfer_mode` exactly as they were. -/
theorem pasv_list_require_login_no_mutation (l : LoginStatus) (m : TransferMode)
    (args args2 : List String) (penv : PasvEnv) (denv : DataEnv)
    (h : ∀ x, l ≠ .loggedin x) :
    exec_pasv l m args penv = ⟨l, m, [], .ok (respDefault .NotLoggedin530).toLine⟩ ∧
    exec_list l m args2 denv = ⟨l, m, [], .ok (respDefault .NotLoggedin530).toLine⟩ ∧
    respCode .NotLoggedin530 = 530 ∧
    (respDefault .NotLoggedin530).toLine = "530 Please login with USER and PASS.\r\n" :=
  ⟨exec_pasv_unauth l m args penv h, exec_list_unauth l m args2 denv h, rfl, rfl⟩

theorem pasv_list_require_login_no_mutation_witness :
    exec_pasv (.username "anonymous") (.pasv 1024 0) [] ⟨some 1030, true, 7⟩
      = ⟨.username "anonymous", .pasv 1024 0, [], .ok (respDefault .NotLoggedin530).toLine⟩ ∧
    exec_list .unloggedin .notSpecified [] ⟨true, true, true⟩
      = ⟨.unloggedin, .notSpecified, [], .ok (respDefault .NotLoggedin530).toLine⟩ :=
  ⟨(pasv_list_require_login_no_mutation (.username "anonymous") (.pasv 1024 0) [] []
      ⟨some 1030, true, 7⟩ ⟨true, true, true⟩ (fun _ hx => LoginStatus.noConfusion hx)).1,
   (pasv_list_require_login_no_mutation .unloggedin .notSpecified [] []
      ⟨some 1030, true, 7⟩ ⟨true, true, true⟩ (fun _ hx => LoginStatus.noConfusion hx)).2.1⟩

/-- C3: for every verb of declared arity `N > 0`: with at least `N`
tokens after the verb, parsing succeeds, the first `N - 1` tokens become
individual arguments and the remaining tokens are joined with single
spaces into the `N`-th argument, for an argument vector of length exactly
`N`; with fewer than `N` tokens, parsing fails with the 501 arity
error. -/
theorem parse_arity_rule (s t : String) (rest : List String) (v : Verb)
    (htok : tokenize s = t :: rest) (hv : from_str t = some v) (hN : 0 < arity v) :
    (arity v ≤ rest.length →
      Command.parse s = .ok (Command.mk v
        (rest.take (arity v - 1) ++ [joinWith " " (rest.drop (arity v - 1))])) ∧
      (rest.take (arity v - 1) ++ [joinWith " " (rest.drop (arity v - 1))]).length
        = arity v) ∧
    (rest.length < arity v →
      Command.parse s
        = .error (respNew .InvalidParameter501 "Invalid number of arguments.").toLine) ∧
    (respNew .InvalidParameter501 "Invalid number of arguments.").toLine
      = "501 Invalid number of arguments.\r\n" := by
  have h0 : ¬ arity v = 0 := by omega
  have hrest : ∀ x ∈ rest, x ≠ "" := fun x hx =>
    mem_tokenize_ne_empty s x (by rw [htok]; exact List.mem_cons_of_mem t hx)
  refine ⟨?_, ?_, rfl⟩
  · intro hge
    have hc := collectLoop_ge (arity v) [] rest (by simpa using hN) (by simpa using hge) hrest
    simp only [List.length_nil, Nat.sub_zero, List.nil_append] at hc
    have hlen : (rest.take (arity v - 1) ++ [joinWith " " (rest.drop (arity v - 1))]).length
        = arity v := by
      rw [List.length_append, List.length_take, List.length_cons, List.length_nil]
      rw [Nat.min_eq_left (by omega : arity v - 1 ≤ rest.length)]
      omega
    refine ⟨?_, hlen⟩
    simp only [Command.parse, htok, hv, h0, if_false, ite_false]
    rw [hc, if_neg (by rw [hlen]; omega)]
  · intro hlt
    have hc := collectLoop_lt (arity v) [] rest (by simpa using hlt)
    simp only [List.nil_append] at hc
    simp only [Command.parse, htok, hv, h0, if_false, ite_false]
    rw [hc, if_pos hlt]

theorem parse_arity_rule_witness :
    Command.parse "PASS a b c" = .ok (Command.mk .pass
      ((["a", "b", "c"] : List String).take (arity .pass - 1)
        ++ [joinWith " " ((["a", "b", "c"] : List String).drop (arity .pass - 1))])) ∧
    Command.parse "PASS a b c" = .ok (.pass ["a b c"]) ∧
    Command.parse "FakeCmdWithTwoArg arg"
      = .error (respNew .InvalidParameter501 "Invalid number of arguments.").toLine :=
  ⟨((parse_arity_rule "PASS a b c" "PASS" ["a", "b", "c"] .pass rfl rfl
      (by decide)).1 (by decide)).1,
   rfl,
   (parse_arity_rule "FakeCmdWithTwoArg arg" "FakeCmdWithTwoArg" ["arg"]
      .fakeCmdWithTwoArg rfl rfl (by decide)).2.1 (by decide)⟩

/-- C4: in every reachable session state, running LIST leaves the
transfer mode `NotSpecified` whatever the environment does;
`data_connection_wrapper` takes the mode out (resetting it) before the
accept, so after the 425 no-mode answer, a successful 226 transfer, or a
fatal accept failure, the mode is `NotSpecified` and no listener is ever
offered a second accept. -/
theorem list_always_resets_transfer_mode (l : LoginStatus) (m : TransferMode)
    (env : DataEnv) (args : List String) (hr : Reachable l m) :
    (exec_list l m args env).mode = .notSpecified ∧
    (∀ l2 m2, (data_connection_wrapper l2 m2 env).mode = .notSpecified) ∧
    data_connection_wrapper l .notSpecified env
      = ⟨l, .notSpecified, [], .ok (respDefault .NoModeSpecified425).toLine⟩ ∧
    (∀ l2 q lid, env = ⟨true, true, true⟩ →
      data_connection_wrapper l2 (.pasv q lid) env
        = ⟨l2, .notSpecified,
            [send_msg_check_crlf (respDefault .DataTransferStarts150).toLine],
            .ok (respDefault .DataTransferFinished226).toLine⟩) ∧
    (∀ l2 q lid, env.acceptOk = false →
      (data_connection_wrapper l2 (.pasv q lid) env).result
        = .error (respDefault .ServiceNotAvalible421).toLine) := by
  refine ⟨?_, fun l2 m2 => data_connection_wrapper_resets l2 m2 env, rfl, ?_, ?_⟩
  · cases l with
    | loggedin x => exact data_connection_wrapper_resets _ _ _
    | unloggedin =>
      exact reachable_unauth_no_listener hr (fun _ hx => LoginStatus.noConfusion hx)
    | username y =>
      exact reachable_unauth_no_listener hr (fun _ hx => LoginStatus.noConfusion hx)
  · intro l2 q lid henv
    subst henv
    rfl
  · intro l2 q lid hacc
    rcases env with ⟨a, sOk, tOk⟩
    have ha : a = false := hacc
    subst ha
    rfl

theorem list_always_resets_transfer_mode_witness :
    (exec_list .unloggedin .notSpecified [] ⟨true, true, true⟩).mode = .notSpecified ∧
    (∀ l2 m2, (data_connection_wrapper l2 m2 ⟨true, true, true⟩).mode = .notSpecified) ∧
    data_connection_wrapper .unloggedin .notSpecified ⟨true, true, true⟩
      = ⟨.unloggedin, .notSpecified, [], .ok (respDefault .NoModeSpecified425).toLine⟩ ∧
    (∀ l2 q lid, (⟨true, true, true⟩ : DataEnv) = ⟨true, true, true⟩ →
      data_connection_wrapper l2 (.pasv q lid) ⟨true, true, true⟩
        = ⟨l2, .notSpecified,
            [send_msg_check_crlf (respDefault .DataTransferStarts150).toLine],
            .ok (respDefault .DataTransferFinished226).toLine⟩) ∧
    (∀ l2 q lid, (⟨true, true, true⟩ : DataEnv).acceptOk = false →
      (data_connection_wrapper l2 (.pasv q lid) ⟨true, true, true⟩).result
        = .error (respDefault .ServiceNotAvalible421).toLine) :=
  list_always_resets_transfer_mode .unloggedin .notSpecified ⟨true, true, true⟩ []
    Reachable.init

/-- C5: when PASV runs while logged in and both the port pick and the
bind succeed, the transfer mode is replaced by the newly bound listener
whatever it held before, and the response is 227 carrying
`(h1,h2,h3,h4,p1,p2)` with the advertised address as four comma-joined
octets, `p1 = port / 256` and `p2 = port % 256`, so `p1 * 256 + p2`
recovers the port; on a failed port pick or a failed bind the handler
returns the fatal 421. -/
theorem pasv_success_and_failure (l : LoginStatus) (m : TransferMode)
    (args : List String) (u : String) (portN lid : Nat) (env1 env2 : PasvEnv)
    (h : l = .loggedin u) (h1 : env1.pickPort = none) (h2 : env2.bindOk = false) :
    exec_pasv l m args ⟨some portN, true, lid⟩
      = ⟨.loggedin u, .pasv portN lid, [],
          .ok (respNew .PasvMode227
            ("(" ++ hostname_to_comma_hostname get_local_hostname ++ ","
              ++ toString (portN / 256) ++ "," ++ toString (portN % 256) ++ ")")).toLine⟩ ∧
    hostname_to_comma_hostname get_local_hostname = "127,0,0,1" ∧
    portN / 256 * 256 + portN % 256 = portN ∧
    (exec_pasv l m args env1).result = .error (respDefault .ServiceNotAvalible421).toLine ∧
    (exec_pasv l m args env2).result = .error (respDefault .ServiceNotAvalible421).toLine ∧
    respCode .PasvMode227 = 227 ∧ respCode .ServiceNotAvalible421 = 421 := by
  subst h
  refine ⟨rfl, rfl, by omega, ?_, ?_, rfl, rfl⟩
  · rcases env1 with ⟨pp, b, lid1⟩
    have hp : pp = none := h1
    subst hp
    rfl
  · rcases env2 with ⟨pp, b, lid2⟩
    have hb : b = false := h2
    subst hb
    cases pp with
    | none => rfl
    | some q => rfl

theorem pasv_success_and_failure_witness :
    exec_pasv (.loggedin "anonymous") (.pasv 1024 3) [] ⟨some 1030, true, 7⟩
      = ⟨.loggedin "anonymous", .pasv 1030 7, [],
          .ok (respNew .PasvMode227
            ("(" ++ hostname_to_comma_hostname get_local_hostname ++ ","
              ++ toString (1030 / 256) ++ "," ++ toString (1030 % 256) ++ ")")).toLine⟩ ∧
    (exec_pasv (.loggedin "anonymous") (.pasv 1024 3) [] ⟨none, true, 0⟩).result
      = .error (respDefault .ServiceNotAvalible421).toLine :=
  ⟨(pasv_success_and_failure (.loggedin "anonymous") (.pasv 1024 3) [] "anonymous"
      1030 7 ⟨none, true, 0⟩ ⟨some 2000, false, 0⟩ rfl rfl rfl).1,
   (pasv_success_and_failure (.loggedin "anonymous") (.pasv 1024 3) [] "anonymous"
      1030 7 ⟨none, true, 0⟩ ⟨some 2000, false, 0⟩ rfl rfl rfl).2.2.2.1⟩

/-- Inversion of a successful parse: the line tokenizes to a verb token
resolved by `from_str`, and the argument vector of the produced variant
has length exactly the declared arity whenever that arity is positive. -/
lemma parse_ok_inv (s : String) (c : Command) (h : Command.parse s = .ok c) :
    ∃ t rest v args, tokenize s = t :: rest ∧ from_str t = some v ∧
      c = Command.mk v args ∧ (arity v = 0 ∨ args.length = arity v) := by
  cases htok : tokenize s with
  | nil =>
    simp only [Command.parse, htok] at h
    exact Except.noConfusion h
  | cons t rest =>
    cases hv : from_str t with
    | none =>
      simp only [Command.parse, htok, hv] at h
      exact Except.noConfusion h
    | some v =>
      simp only [Command.parse, htok, hv] at h
      by_cases h0 : arity v = 0
      · rw [if_pos h0] at h
        split at h
        · injection h with h
          exact ⟨t, rest, v, [], rfl, hv, h.symm, Or.inl h0⟩
        · injection h with h
          exact ⟨t, rest, v, [joinWith " " rest], rfl, hv, h.symm, Or.inl h0⟩
      · rw [if_neg h0] at h
        split at h
        · exact absurd h (by simp)
        · next hcond =>
          have hle := collectLoop_length_le (arity v) [] rest
            (by simpa using Nat.pos_of_ne_zero h0)
          have hlen : (collectLoop (arity v) [] rest).length = arity v := by omega
          injection h with h
          exact ⟨t, rest, v, collectLoop (arity v) [] rest, rfl, hv, h.symm, Or.inr hlen⟩

/-- C7: the pure login step agrees with `exec_user` / `exec_pass`, and —
over every sequence of USER/PASS commands run from `Unloggedin` — the
final state is `Loggedin` exactly when somewhere in the sequence a USER
with a valid name is immediately followed by a PASS with the matching
secret; in every other ordering the session stays within
{Unloggedin, Username}. -/
theorem only_valid_user_pass_reaches_loggedin :
    (∀ st m u, (exec_user st m [u]).map (fun h => h.login)
      = some (stepLogin st (.user u))) ∧
    (∀ st m p, (exec_pass st m [p]).map (fun h => h.login)
      = some (stepLogin st (.pass p))) ∧
    (∀ cs : List UPCmd,
      (∃ u, runUP .unloggedin cs = .loggedin u) ↔ HasLoginPair cs) := by
  refine ⟨?_, ?_, ?_⟩
  · intro st m u
    cases st <;> rfl
  · intro st m p
    cases st with
    | unloggedin => rfl
    | loggedin x => rfl
    | username y =>
      have hter : exec_pass (.username y) m [p]
          = some (if fake_user_valid y p then
              ⟨.loggedin y, m, [], .ok (respDefault .LoginSuccess230).toLine⟩
            else
              ⟨.unloggedin, m, [],
                .ok (respNew .NotLoggedin530 "Login incorrect.").toLine⟩) := rfl
      have hstep : stepLogin (.username y) (.pass p)
          = if fake_user_valid y p then .loggedin y else .unloggedin := rfl
      by_cases hv : fake_user_valid y p = true
      · rw [hter, if_pos hv, hstep, if_pos hv]
        rfl
      · rw [hter, if_neg hv, hstep, if_neg hv]
        rfl
  · intro cs
    constructor
    · rintro ⟨u, hu⟩
      exact (runUP_reaches_loggedin_decomp cs).1 u hu
    · rintro ⟨pre, u, p, post, hcs, hv⟩
      subst hcs
      exact hasLoginPair_reaches_loggedin .unloggedin pre post u p hv

theorem only_valid_user_pass_reaches_loggedin_witness :
    (∃ u, runUP .unloggedin [UPCmd.user "anonymous", UPCmd.pass "anonymous"]
      = .loggedin u) ∧
    runUP .unloggedin [UPCmd.user "anonymous", UPCmd.pass "wrong"] ≠ .loggedin "anonymous" :=
  ⟨(only_valid_user_pass_reaches_loggedin.2.2 _).mpr
      ⟨[], "anonymous", "anonymous", [], rfl, rfl⟩,
   by decide⟩

/-- C8 is false as stated: the `Display` serialization always appends
`\r\n`, so a caller-supplied override message that already ends in CRLF
produces the double-terminated wire form `500 oops\r\n\r\n` — the CRLF
guard in `send_msg_check_crlf` looks at the whole serialized line, which
already ends in CRLF, and leaves the duplicate in place. -/
theorem crlf_double_termination_counterexample :
    ends_with_crlf "oops\r\n" = true ∧
    (respNew .SyntaxErr500 "oops\r\n").toLine = "500 oops\r\n\r\n" ∧
    send_msg_check_crlf ((respNew .SyntaxErr500 "oops\r\n").toLine)
      = "500 oops\r\n\r\n" :=
  ⟨rfl, rfl, rfl⟩

/-- C8 (amended): serialization produces `<code><space><message><CRLF>`,
unconditionally appending CRLF; `send_msg_check_crlf` appends `\r\n` only
when the string it is given does not already end with it, so a serialized
response goes on the wire unchanged — and therefore an override message
that itself ends in CRLF yields a wire line ending in `\r\n\r\n`. -/
theorem serialization_crlf_discipline (r : Resp) :
    send_msg_check_crlf r.toLine = r.toLine ∧
    (ends_with_crlf r.message = true →
      ∃ b, r.toLine = b ++ "\r\n" ++ "\r\n") := by
  constructor
  · have hc : ends_with_crlf r.toLine = true :=
      ends_with_crlf_append_crlf (toString (respCode r.kind) ++ " " ++ r.message)
    show (if ends_with_crlf r.toLine then r.toLine else r.toLine ++ "\r\n") = r.toLine
    rw [if_pos hc]
  · intro h
    obtain ⟨b0, hb⟩ := ends_with_crlf_extract r.message h
    refine ⟨toString (respCode r.kind) ++ " " ++ b0, ?_⟩
    show toString (respCode r.kind) ++ " " ++ r.message ++ "\r\n" = _
    rw [hb]
    apply String.ext
    simp [String.data_append, List.append_assoc]

theorem serialization_crlf_discipline_witness :
    send_msg_check_crlf (respNew .SyntaxErr500 "oops").toLine
      = (respNew .SyntaxErr500 "oops").toLine ∧
    (∃ b, (respNew .SyntaxErr500 "hi\r\n").toLine = b ++ "\r\n" ++ "\r\n") :=
  ⟨(serialization_crlf_discipline (respNew .SyntaxErr500 "oops")).1,
   (serialization_crlf_discipline (respNew .SyntaxErr500 "hi\r\n")).2 rfl⟩

/-- C9: the compiled-in default message of the 150 response itself begins
with `150 `, so the line sent on the control channel before a data
transfer is `150 150 Here comes the data.\r\n` with the code doubled —
and no other response kind has a default message that begins with its own
code. -/
theorem data_open_150_repeats_its_code :
    respDefaultMessage .DataTransferStarts150 = some "150 Here comes the data." ∧
    starts_with (respDefault .DataTransferStarts150).message
      (toString (respCode .DataTransferStarts150) ++ " ") = true ∧
    send_msg_check_crlf (respDefault .DataTransferStarts150).toLine
      = "150 150 Here comes the data.\r\n" ∧
    (data_connection_wrapper (.loggedin "anonymous") (.pasv 1024 0)
      ⟨true, true, true⟩).sent = ["150 150 Here comes the data.\r\n"] ∧
    (∀ k : RespKind, k ∈ allRespKinds) ∧
    (allRespKinds.all fun k =>
      decide (k = .DataTransferStarts150) ||
        (match respDefaultMessage k with
         | some d => ! starts_with d (toString (respCode k) ++ " ")
         | none => true)) = true := by
  refine ⟨rfl, by decide, rfl, rfl, fun k => by cases k <;> simp [allRespKinds], by decide⟩

/-- C10: `exec_user` / `exec_pass` index `args[0]` with no bounds check;
any `User`/`Pass` command produced by `Command::parse` carries exactly one
argument, so dispatch never hits the panic; a `User`/`Pass` value built
with an empty vector outside the parse image makes `exec_cmd` panic. -/
theorem user_pass_indexing_safety :
    (∀ s args, Command.parse s = .ok (.user args) → args.length = 1) ∧
    (∀ s args, Command.parse s = .ok (.pass args) → args.length = 1) ∧
    (∀ l m args penv denv, 0 < args.length →
      (exec_cmd l m (.user args) penv denv).isSome = true ∧
      (exec_cmd l m (.pass args) penv denv).isSome = true) ∧
    (∀ l m penv denv, exec_cmd l m (.user []) penv denv = none ∧
      exec_cmd l m (.pass []) penv denv = none) := by
  refine ⟨?_, ?_, ?_, ?_⟩
  · intro s args h
    obtain ⟨t, rest, v, args2, _, _, hc, hor⟩ := parse_ok_inv s _ h
    cases v <;> simp [Command.mk] at hc
    subst hc
    rcases hor with h0 | hlen
    · exact absurd h0 (by simp [arity])
    · exact hlen
  · intro s args h
    obtain ⟨t, rest, v, args2, _, _, hc, hor⟩ := parse_ok_inv s _ h
    cases v <;> simp [Command.mk] at hc
    subst hc
    rcases hor with h0 | hlen
    · exact absurd h0 (by simp [arity])
    · exact hlen
  · intro l m args penv denv hpos
    cases args with
    | nil => simp at hpos
    | cons a rest => exact ⟨rfl, rfl⟩
  · intro l m penv denv
    exact ⟨rfl, rfl⟩

theorem user_pass_indexing_safety_witness :
    (["u1"] : List String).length = 1 ∧
    exec_cmd .unloggedin .notSpecified (.user []) ⟨none, false, 0⟩ ⟨false, false, false⟩
      = none :=
  ⟨user_pass_indexing_safety.1 "USER u1" ["u1"] rfl,
   (user_pass_indexing_safety.2.2.2 .unloggedin .notSpecified ⟨none, false, 0⟩
      ⟨false, false, false⟩).1⟩

end RustFtp
